import Mathlib

/-!
Verification of the staged audio source-separation service in this
repository (`server/demucs-api-server.py` and `server/demucs_separate.py`).

The embedding is shallow: waveforms are abstract sample lists, the two
pretrained demucs models are opaque functions bundled with their declared
source-name lists, and the FastAPI handler is a pure function from the
worker process outcome (exit status, stderr, produced files, wall-clock
duration) to the HTTP response value it returns.
-/

/-- An audio waveform, abstracted to its samples (`demucs_separate.py`
works with tensors; only identity/provenance of waveforms matters here). -/
abbrev Audio := List Int

/-- A loaded demucs model as used by `demucs_separate.py`: `get_model`
returns an object with a `sources` list of stem names, and `apply_model`
maps an input waveform to one output waveform per entry of `sources`. -/
structure Model where
  name : String
  sources : List String
  apply : Audio → List Audio

/-- One inference stage as executed by the script: which model ran, the
waveform it was applied to, and the waveforms it produced. -/
structure StageRecord where
  modelName : String
  input : Audio
  outputs : List Audio
deriving DecidableEq

/-- Terminal outcome of `demucs_separate.py`'s `main`: either the process
exits non-zero (any of its `sys.exit(1)` / uncaught-exception paths), or
it succeeds with the saved stem map (`results` dict, stem name → saved
waveform) plus the trace of inference stages it executed. -/
inductive ScriptResult where
  | failed
  | ok (results : List (String × Audio)) (trace : List StageRecord)
deriving DecidableEq

/-- Python dict assignment `d[k] = v` on an insertion-ordered association
list: an existing key keeps its position and gets the new value, a new key
is appended at the end. -/
def upsert {β : Type} (k : String) (v : β) : List (String × β) → List (String × β)
  | [] => [(k, v)]
  | p :: rest => if p.1 = k then (k, v) :: rest else p :: upsert k v rest

/-- Stage-1 save loop of `demucs_separate.py` (lines 178-190):
`for i, name in enumerate(stem_names_4stem)`, skipping `'other'`, storing
`sources_4stem[i]` under `name`. A tensor index out of range would raise,
which the script surfaces as a non-zero exit (`none` here). -/
def saveStage1Go (srcs : List Audio) : List String → Nat → List (String × Audio) → Option (List (String × Audio))
  | [], _, acc => some acc
  | name :: rest, i, acc =>
    if name = "other" then saveStage1Go srcs rest (i + 1) acc
    else
      match srcs.get? i with
      | none => none
      | some a => saveStage1Go srcs rest (i + 1) (upsert name a acc)

/-- Save the stage-1 stems (all of the 4-stem model's outputs except
`'other'`) into the results dict. -/
def saveStage1 (names : List String) (srcs : List Audio) : Option (List (String × Audio)) :=
  saveStage1Go srcs names 0 []

/-- The stem names the script takes from stage 2
(`for target_stem in ['piano', 'guitar', 'other']`, line 195). -/
def stage2Targets : List String := ["piano", "guitar", "other"]

/-- Stage-2 save loop of `demucs_separate.py` (lines 195-206): for each
target stem, if the 6-stem model declares it, store
`sources_6stem[stem_names_6stem.index(target)]` under the target name. -/
def saveStage2Go (names6 : List String) (srcs6 : List Audio) : List String → List (String × Audio) → Option (List (String × Audio))
  | [], acc => some acc
  | t :: rest, acc =>
    if names6.contains t then
      match names6.findIdx? (fun n => n == t) with
      | none => none
      | some idx =>
        match srcs6.get? idx with
        | none => none
        | some a => saveStage2Go names6 srcs6 rest (upsert t a acc)
    else saveStage2Go names6 srcs6 rest acc

/-- Save the stage-2 target stems into the results dict built by stage 1. -/
def saveStage2 (names6 : List String) (srcs6 : List Audio) (acc : List (String × Audio)) : Option (List (String × Audio)) :=
  saveStage2Go names6 srcs6 stage2Targets acc

/-- `demucs_separate.py` `main` (lines 77-216), given the two loaded
models and the loaded input waveform. Stage 1 applies `model4` to the
input; `stem_names_4stem.index('other')` selects the `other` waveform
(raising, hence `failed`, when absent); stage 2 applies `model6` to that
waveform; finally the results dict is written. External failures (model
load, audio load, inference, file I/O) all exit non-zero and are covered
by the `failed` constructor / by the server's non-zero-returncode branch. -/
def runPipeline (model4 model6 : Model) (input : Audio) : ScriptResult :=
  match model4.sources.findIdx? (fun n => n == "other") with
  | none => ScriptResult.failed
  | some otherIdx =>
    match (model4.apply input).get? otherIdx with
    | none => ScriptResult.failed
    | some otherAudio =>
      match saveStage1 model4.sources (model4.apply input) with
      | none => ScriptResult.failed
      | some res1 =>
        match saveStage2 model6.sources (model6.apply otherAudio) res1 with
        | none => ScriptResult.failed
        | some res =>
          ScriptResult.ok res
            [StageRecord.mk model4.name input (model4.apply input),
             StageRecord.mk model6.name otherAudio (model6.apply otherAudio)]

/-- The results dict of a script run, when it succeeded. -/
def resultsOf : ScriptResult → Option (List (String × Audio))
  | ScriptResult.failed => none
  | ScriptResult.ok res _ => some res

/-- The stage trace of a script run, when it succeeded. -/
def traceOf : ScriptResult → Option (List StageRecord)
  | ScriptResult.failed => none
  | ScriptResult.ok _ tr => some tr

/-- A concrete 4-stem inference function for instantiating theorems. -/
def ap4test : Audio → List Audio := fun _ => [[1], [2], [3], [4]]

/-- A concrete 6-stem inference function for instantiating theorems. -/
def ap6test : Audio → List Audio := fun _ => [[11], [12], [13], [14], [15], [16]]

/-- `htdemucs_ft` with its source list as documented at
`demucs_separate.py` line 131, with a concrete inference function. -/
def model4test : Model := Model.mk "htdemucs_ft" ["drums", "bass", "other", "vocals"] ap4test

/-- `htdemucs_6s` with its source list as documented at
`demucs_separate.py` line 193, with a concrete inference function. -/
def model6test : Model := Model.mk "htdemucs_6s" ["drums", "bass", "other", "vocals", "guitar", "piano"] ap6test

/-- Python `str.replace` (all non-overlapping occurrences, left to right),
over character lists; the fuel argument is the remaining input length, so
the guard branch is never reached. -/
def replaceGo (pat repl : List Char) : Nat → List Char → List Char
  | _, [] => []
  | 0, s => s
  | Nat.succ fuel, c :: rest =>
    if pat ≠ [] ∧ pat.isPrefixOf (c :: rest) then
      repl ++ replaceGo pat repl fuel (List.drop pat.length (c :: rest))
    else c :: replaceGo pat repl fuel rest

/-- Python `s.replace(pat, repl)`. -/
def pyReplace (s pat repl : String) : String :=
  String.mk (replaceGo pat.toList repl.toList s.toList.length s.toList)

/-- Python `s.endswith(suffix)`. -/
def pyEndsWith (s suffix : String) : Bool := suffix.toList.isSuffixOf s.toList

/-- Python `s.startswith(pre)`; used to model which paths live under a
directory tree. -/
def pyStartsWith (s pre : String) : Bool := pre.toList.isPrefixOf s.toList

/-- A file on disk: its name within the output directory and its bytes. -/
structure FsFile where
  name : String
  data : List Nat
deriving DecidableEq

/-- The standard base64 alphabet (RFC 4648), as used by
Python's `base64.b64encode`. -/
def b64Alphabet : List Char :=
  "ABCDEFGHIJKLMNOPQRSTUVWXYZabcdefghijklmnopqrstuvwxyz0123456789+/".toList

/-- The base64 digit for a 6-bit group. -/
def b64c (n : Nat) : Char := b64Alphabet.getD n 'A'

/-- Python `base64.b64encode` over a byte list, with `=` padding. -/
def base64Encode : List Nat → String
  | [] => ""
  | [a] => String.mk [b64c (a / 4 % 64), b64c (a % 4 * 16), '=', '=']
  | [a, b] => String.mk [b64c (a / 4 % 64), b64c (a % 4 * 16 + b / 16 % 16), b64c (b % 16 * 4), '=']
  | a :: b :: c :: rest =>
    String.mk [b64c (a / 4 % 64), b64c (a % 4 * 16 + b / 16 % 16),
               b64c (b % 16 * 4 + c / 64 % 4), b64c (c % 64)] ++ base64Encode rest

/-- MIME type chosen by the handler (`demucs-api-server.py` line 123):
`audio/mpeg` for `.mp3` files, otherwise `audio/wav` (only `.mp3` and
`.wav` files reach this point). -/
def mimeFor (name : String) : String :=
  if pyEndsWith name ".mp3" then "audio/mpeg" else "audio/wav"

/-- The inline payload built at `demucs-api-server.py` line 124:
a data URI with the file's MIME type and base64-encoded bytes. -/
def dataUri (f : FsFile) : String :=
  "data:" ++ mimeFor f.name ++ ";base64," ++ base64Encode f.data

/-- The stem name derived from a file name
(`file.replace(".mp3", "").replace(".wav", "")`, line 116). -/
def stemNameOf (file : String) : String :=
  pyReplace (pyReplace file ".mp3" "") ".wav" ""

/-- The handler's stem-collection loop (`demucs-api-server.py` lines
114-125): for each directory entry ending in `.mp3` or `.wav`, assign
`stems[stem_name] = <data URI>` in the insertion-ordered dict. -/
def collectStemsAux : List FsFile → List (String × String) → List (String × String)
  | [], acc => acc
  | f :: rest, acc =>
    if pyEndsWith f.name ".mp3" || pyEndsWith f.name ".wav" then
      collectStemsAux rest (upsert (stemNameOf f.name) (dataUri f) acc)
    else collectStemsAux rest acc

/-- The `stems` dict built from the output directory listing. -/
def collectStems (files : List FsFile) : List (String × String) :=
  collectStemsAux files []

/-- Index of the last `'.'` in a character list, if any. -/
def rfindDotAux : List Char → Nat → Option Nat → Option Nat
  | [], _, best => best
  | c :: rest, i, best => rfindDotAux rest (i + 1) (if c = '.' then some i else best)

/-- Python `pathlib.Path(s).stem`: the name with its final suffix
removed; a dot at position 0 or at the very end does not start a suffix. -/
def pathStem (s : String) : String :=
  match rfindDotAux s.toList 0 none with
  | some i => if 0 < i ∧ i + 1 < s.length then String.mk (s.toList.take i) else s
  | none => s

/-- The value returned by the `/api/separate` handler: either a
`JSONResponse(status_code=500, content={"error": ..., "details"?: ...})`
or the success payload of `demucs-api-server.py` lines 129-135. -/
inductive Response where
  | jsonError (status : Nat) (error : String) (details : Option String)
  | success (stems : List (String × String)) (availableStems : List String)
      (model : String) (songName : String)
deriving DecidableEq

/-- What the `subprocess.run` call produced, as observed by the handler:
the run timed out (`subprocess.TimeoutExpired`), some other exception was
raised inside the `try` block, or the worker completed with a return
code, a stderr text, and the state of the expected output directory
(`output_dir/htdemucs_2stage/<song>`: whether it exists, and its files). -/
inductive WorkerOutcome where
  | timedOut
  | raisedOther (msg : String)
  | completed (returncode : Int) (stderr : String) (dirExists : Bool) (files : List FsFile)
deriving DecidableEq

/-- The files listing of a completed worker run (empty otherwise). -/
def filesOf : WorkerOutcome → List FsFile
  | WorkerOutcome.completed _ _ _ files => files
  | _ => []

/-- The `/api/separate` handler `separate_audio`
(`demucs-api-server.py` lines 82-146), from the worker outcome to the
response: `TimeoutExpired` is caught first and answered with the timeout
error; any other exception is answered with `{"error": str(e)}`; a
non-zero return code is answered with `"Separation failed"` plus the raw
stderr; otherwise the stems found on disk (none when the expected
directory is absent) are encoded and returned with `success=True`. -/
def responseFor (filename model : String) (w : WorkerOutcome) : Response :=
  match w with
  | WorkerOutcome.timedOut =>
    Response.jsonError 500 "Separation timeout (>30 minutes)" none
  | WorkerOutcome.raisedOther msg => Response.jsonError 500 msg none
  | WorkerOutcome.completed rc stderr dirExists files =>
    if rc ≠ 0 then Response.jsonError 500 "Separation failed" (some stderr)
    else
      Response.success (if dirExists then collectStems files else [])
        ((if dirExists then collectStems files else []).map Prod.fst)
        model (pathStem filename)

/-- The wall-clock budget passed to `subprocess.run`
(`timeout=1800`, `demucs-api-server.py` line 89). -/
def timeoutBudget : Nat := 1800

/-- `subprocess.run(cmd, ..., timeout=1800)`: when the worker's execution
exceeds the budget the process is killed and `TimeoutExpired` is raised;
otherwise its completion data is returned. -/
def runWorker (duration : Nat) (rc : Int) (stderr : String) (dirExists : Bool)
    (files : List FsFile) : WorkerOutcome :=
  if timeoutBudget < duration then WorkerOutcome.timedOut
  else WorkerOutcome.completed rc stderr dirExists files

/-- The command list built by the handler (`demucs-api-server.py` lines
73-80). The `model` form field is in scope there but the command does not
consult it: every request invokes `demucs_separate.py`, the two-stage
script. -/
def buildCmd (model pythonCmd scriptPath inputPath outputDir shiftsStr overlapStr : String) :
    List String :=
  [pythonCmd, scriptPath, inputPath, outputDir, "--shifts", shiftsStr, "--overlap", overlapStr]

/-- The inference stages executed for a request: the handler always runs
`demucs_separate.py` (see `buildCmd`), so the stages are the script's,
whatever the request's `model` field says. -/
def stagesForRequest (model : String) (model4 model6 : Model) (input : Audio) :
    Option (List StageRecord) :=
  traceOf (runPipeline model4 model6 input)

/-- `tempfile.TemporaryDirectory.__exit__`: recursively remove the
scratch directory and everything under it from the set of existing paths. -/
def removeTree (dir : String) (paths : List String) : List String :=
  paths.filter (fun p => !(p == dir || pyStartsWith p (dir ++ "/")))

/-- The `with tempfile.TemporaryDirectory() as temp_dir:` block: the
directory is created on entry and removed on every exit path, whether the
body returns normally or propagates an exception. -/
def withTempDir (dir : String)
    (body : List String → Except (String × List String) (Response × List String))
    (init : List String) : Except (String × List String) (Response × List String) :=
  match body (dir :: init) with
  | Except.ok (r, mid) => Except.ok (r, removeTree dir mid)
  | Except.error (e, mid) => Except.error (e, removeTree dir mid)

/-- The body of the handler's `with` block: it writes the uploaded file
into the scratch directory, the worker creates its paths, and the
`try`/`except` chain turns every worker outcome — success, non-zero exit,
timeout, or unexpected exception — into a returned response rather than a
propagating exception. -/
def handlerBody (dir filename model : String) (w : WorkerOutcome) (created : List String)
    (world : List String) : Except (String × List String) (Response × List String) :=
  Except.ok (responseFor filename model w, created ++ ((dir ++ "/" ++ filename) :: world))

/-- One full job of the handler, threading the set of existing filesystem
paths: allocate the scratch directory, run the body, release the
directory on exit. -/
def separateAudioJob (dir filename model : String) (w : WorkerOutcome)
    (created init : List String) : Except (String × List String) (Response × List String) :=
  withTempDir dir (handlerBody dir filename model w created) init

theorem mem_upsert_elim {β : Type} (k : String) (val : β) (l : List (String × β)) (n : String) (v : β)
    (h : (n, v) ∈ upsert k val l) : (n = k ∧ v = val) ∨ (n, v) ∈ l := by
  induction l with
  | nil =>
    simp [upsert] at h
    exact Or.inl ⟨h.1, h.2⟩
  | cons p rest ih =>
    by_cases hk : p.1 = k
    · simp [upsert, hk] at h
      rcases h with ⟨hn, hv⟩ | hmem
      · exact Or.inl ⟨hn, hv⟩
      · exact Or.inr (List.mem_cons_of_mem _ hmem)
    · simp only [upsert, if_neg hk] at h
      rcases List.mem_cons.mp h with heq | hmem
      · exact Or.inr (heq ▸ List.mem_cons_self _ _)
      · rcases ih hmem with hl | hr
        · exact Or.inl hl
        · exact Or.inr (List.mem_cons_of_mem _ hr)

theorem map_fst_upsert {β : Type} (k : String) (val : β) (l : List (String × β)) :
    (upsert k val l).map Prod.fst =
      if k ∈ l.map Prod.fst then l.map Prod.fst else l.map Prod.fst ++ [k] := by
  induction l with
  | nil => simp [upsert]
  | cons p rest ih =>
    by_cases hk : p.1 = k
    · simp [upsert, hk]
    · simp only [upsert, if_neg hk, List.map_cons, ih]
      by_cases hmem : k ∈ rest.map Prod.fst
      · simp [hmem, Ne.symm hk]
      · simp [hmem, Ne.symm hk]

theorem key_mem_upsert_self {β : Type} (k : String) (val : β) (l : List (String × β)) :
    k ∈ (upsert k val l).map Prod.fst := by
  rw [map_fst_upsert]
  by_cases hmem : k ∈ l.map Prod.fst
  · rw [if_pos hmem]; exact hmem
  · rw [if_neg hmem]; exact List.mem_append_right _ (List.mem_singleton.mpr rfl)

theorem key_mem_upsert_mono {β : Type} (k2 k : String) (val : β) (l : List (String × β))
    (h : k2 ∈ l.map Prod.fst) : k2 ∈ (upsert k val l).map Prod.fst := by
  rw [map_fst_upsert]
  by_cases hmem : k ∈ l.map Prod.fst
  · rw [if_pos hmem]; exact h
  · rw [if_neg hmem]; exact List.mem_append_left _ h

theorem nodup_upsert {β : Type} (k : String) (val : β) (l : List (String × β))
    (h : (l.map Prod.fst).Nodup) : ((upsert k val l).map Prod.fst).Nodup := by
  rw [map_fst_upsert]
  by_cases hmem : k ∈ l.map Prod.fst
  · simpa [hmem]
  · simp only [if_neg hmem]
    simp [List.nodup_append, h, hmem]

theorem exists_val_of_key_mem {β : Type} (l : List (String × β)) (n : String)
    (h : n ∈ l.map Prod.fst) : ∃ v, (n, v) ∈ l := by
  rcases List.mem_map.mp h with ⟨p, hp, he⟩
  exact ⟨p.2, by rwa [show (n, p.2) = p from by rw [← he]]⟩

theorem key_mem_of_mem {β : Type} (l : List (String × β)) (n : String) (v : β)
    (h : (n, v) ∈ l) : n ∈ l.map Prod.fst :=
  List.mem_map.mpr ⟨(n, v), h, rfl⟩

theorem mem_collectStemsAux (files : List FsFile) (acc : List (String × String)) (n v : String)
    (h : (n, v) ∈ collectStemsAux files acc) :
    (∃ f, f ∈ files ∧ (pyEndsWith f.name ".mp3" || pyEndsWith f.name ".wav") = true ∧
      n = stemNameOf f.name ∧ v = dataUri f) ∨ (n, v) ∈ acc := by
  induction files generalizing acc with
  | nil =>
    simp only [collectStemsAux] at h
    exact Or.inr h
  | cons f rest ih =>
    simp only [collectStemsAux] at h
    by_cases hacc : (pyEndsWith f.name ".mp3" || pyEndsWith f.name ".wav") = true
    · rw [if_pos hacc] at h
      rcases ih _ h with ⟨g, hg, hg2, hg3, hg4⟩ | hmem
      · exact Or.inl ⟨g, List.mem_cons_of_mem _ hg, hg2, hg3, hg4⟩
      · rcases mem_upsert_elim _ _ _ _ _ hmem with ⟨hn, hv⟩ | hold
        · exact Or.inl ⟨f, List.mem_cons_self _ _, hacc, hn, hv⟩
        · exact Or.inr hold
    · rw [if_neg hacc] at h
      rcases ih _ h with ⟨g, hg, hg2, hg3, hg4⟩ | hmem
      · exact Or.inl ⟨g, List.mem_cons_of_mem _ hg, hg2, hg3, hg4⟩
      · exact Or.inr hmem

theorem keys_collectStemsAux_mono (files : List FsFile) (acc : List (String × String)) (n : String)
    (h : n ∈ acc.map Prod.fst) : n ∈ (collectStemsAux files acc).map Prod.fst := by
  induction files generalizing acc with
  | nil => simp only [collectStemsAux]; exact h
  | cons f rest ih =>
    simp only [collectStemsAux]
    by_cases hacc : (pyEndsWith f.name ".mp3" || pyEndsWith f.name ".wav") = true
    · rw [if_pos hacc]
      exact ih _ (key_mem_upsert_mono _ _ _ _ h)
    · rw [if_neg hacc]
      exact ih _ h

theorem key_mem_collectStemsAux (files : List FsFile) (acc : List (String × String)) (f : FsFile)
    (hf : f ∈ files) (hacc : (pyEndsWith f.name ".mp3" || pyEndsWith f.name ".wav") = true) :
    stemNameOf f.name ∈ (collectStemsAux files acc).map Prod.fst := by
  induction files generalizing acc with
  | nil => exact absurd hf (List.not_mem_nil _)
  | cons g rest ih =>
    simp only [collectStemsAux]
    rcases List.mem_cons.mp hf with heq | hmem
    · subst heq
      rw [if_pos hacc]
      exact keys_collectStemsAux_mono _ _ _ (key_mem_upsert_self _ _ _)
    · by_cases hg : (pyEndsWith g.name ".mp3" || pyEndsWith g.name ".wav") = true
      · rw [if_pos hg]
        exact ih _ hmem
      · rw [if_neg hg]
        exact ih _ hmem

theorem nodup_keys_collectStemsAux (files : List FsFile) (acc : List (String × String))
    (h : (acc.map Prod.fst).Nodup) : ((collectStemsAux files acc).map Prod.fst).Nodup := by
  induction files generalizing acc with
  | nil => simpa [collectStemsAux]
  | cons f rest ih =>
    simp only [collectStemsAux]
    by_cases hacc : (pyEndsWith f.name ".mp3" || pyEndsWith f.name ".wav") = true
    · rw [if_pos hacc]
      exact ih _ (nodup_upsert _ _ _ h)
    · rw [if_neg hacc]
      exact ih _ h

theorem runPipeline_ok_elim (m4 m6 : Model) (input : Audio) (res : List (String × Audio))
    (tr : List StageRecord) (h : runPipeline m4 m6 input = ScriptResult.ok res tr) :
    ∃ idx otherAudio,
      m4.sources.findIdx? (fun n => n == "other") = some idx ∧
      (m4.apply input).get? idx = some otherAudio ∧
      tr = [StageRecord.mk m4.name input (m4.apply input),
            StageRecord.mk m6.name otherAudio (m6.apply otherAudio)] ∧
      ∃ r1, saveStage1 m4.sources (m4.apply input) = some r1 ∧
        saveStage2 m6.sources (m6.apply otherAudio) r1 = some res := by
  unfold runPipeline at h
  split at h
  · simp at h
  rename_i idx hidx
  split at h
  · simp at h
  rename_i otherAudio hother
  split at h
  · simp at h
  rename_i r1 hr1
  split at h
  · simp at h
  rename_i r hr
  injection h with h1 h2
  subst h1
  exact ⟨idx, otherAudio, hidx, hother, h2.symm, r1, hr1, hr⟩

theorem pipelineEval (ap4 ap6 : Audio → List Audio) (input d b o v d6 b6 o6 v6 g6 p6 : Audio)
    (h4 : ap4 input = [d, b, o, v]) (h6 : ap6 o = [d6, b6, o6, v6, g6, p6]) :
    runPipeline (Model.mk "htdemucs_ft" ["drums", "bass", "other", "vocals"] ap4)
        (Model.mk "htdemucs_6s" ["drums", "bass", "other", "vocals", "guitar", "piano"] ap6)
        input =
      ScriptResult.ok
        [("drums", d), ("bass", b), ("vocals", v), ("piano", p6), ("guitar", g6), ("other", o6)]
        [StageRecord.mk "htdemucs_ft" input [d, b, o, v],
         StageRecord.mk "htdemucs_6s" o [d6, b6, o6, v6, g6, p6]] := by
  unfold runPipeline
  dsimp only
  rw [h4]
  rw [show ((["drums", "bass", "other", "vocals"] : List String).findIdx? (fun n => n == "other")) = some 2 from rfl]
  dsimp only [List.get?]
  rw [h6]
  rfl

/-- Claim C1 counterexample: a run in which the worker exits 0 but the
expected output directory is absent yields a response with
`success=True` and an empty stems mapping — a success outcome with 0
stems instead of the 6 the hierarchical profile expects, so a
partial/degraded stem set is returned with success. -/
theorem c1_counterexample :
    responseFor "mysong.mp3" "htdemucs_2stage" (WorkerOutcome.completed 0 "" false []) =
      Response.success [] [] "htdemucs_2stage" "mysong" ∧
    ([] : List (String × String)).length < 6 :=
  ⟨rfl, by decide⟩

/-- Claim C1 (amended): for every worker run that exits 0, the handler
returns a success response whose stems mapping contains exactly the stem
names derived from the `.mp3`/`.wav` files actually present in the
expected output directory — possibly fewer than the profile's expected
stem set, and empty when the directory is absent; missing files are
silently skipped rather than turned into a failure. -/
theorem c1_amended_success_stems_are_found_files (filename model stderr : String) (de : Bool)
    (files : List FsFile) :
    ∃ stems, responseFor filename model (WorkerOutcome.completed 0 stderr de files) =
        Response.success stems (stems.map Prod.fst) model (pathStem filename) ∧
      ∀ n, (∃ v, (n, v) ∈ stems) ↔
        (de = true ∧ ∃ f, f ∈ files ∧ (pyEndsWith f.name ".mp3" || pyEndsWith f.name ".wav") = true ∧
          n = stemNameOf f.name) := by
  cases de with
  | false =>
    refine ⟨[], rfl, ?_⟩
    intro n
    simp
  | true =>
    refine ⟨collectStems files, rfl, ?_⟩
    intro n
    constructor
    · rintro ⟨v, hv⟩
      rcases mem_collectStemsAux files [] n v hv with ⟨f, hf, hacc, hn, -⟩ | habs
      · exact ⟨rfl, f, hf, hacc, hn⟩
      · exact absurd habs (List.not_mem_nil _)
    · rintro ⟨-, f, hf, hacc, hn⟩
      subst hn
      exact exists_val_of_key_mem _ _ (key_mem_collectStemsAux files [] f hf hacc)

/-- Claim C2 counterexample: a request whose `model` field asks for a
single-stage profile (`fourStem`, or `sixStem`) still executes two
inference stages — the handler always invokes the two-stage script, so
no profile value yields exactly one stage. -/
theorem c2_counterexample :
    Option.map List.length (stagesForRequest "fourStem" model4test model6test [0]) = some 2 ∧
    Option.map List.length (stagesForRequest "sixStem" model4test model6test [0]) = some 2 :=
  ⟨rfl, rfl⟩

/-- Claim C2 (amended): the requested `model` field does not determine
the stage list — the command the handler builds is identical for every
`model` value, and every request that reaches a successful script run
executes exactly the two-stage hierarchical pipeline (two inference
stages); the `model` value is only echoed back in the response. -/
theorem c2_amended_model_ignored (m1 m2 pythonCmd scriptPath inputPath outputDir shiftsStr overlapStr : String)
    (model4 model6 : Model) (input : Audio) (res : List (String × Audio)) (tr : List StageRecord)
    (h : runPipeline model4 model6 input = ScriptResult.ok res tr) :
    buildCmd m1 pythonCmd scriptPath inputPath outputDir shiftsStr overlapStr =
      buildCmd m2 pythonCmd scriptPath inputPath outputDir shiftsStr overlapStr ∧
    stagesForRequest m1 model4 model6 input = some tr ∧
    tr.length = 2 := by
  refine ⟨rfl, ?_, ?_⟩
  · simp [stagesForRequest, traceOf, h]
  · rcases runPipeline_ok_elim _ _ _ _ _ h with ⟨idx, oa, h1, h2, h3, -⟩
    rw [h3]
    rfl

/-- Witness for C2 (amended), at a concrete request and script run. -/
theorem c2_amended_witness :
    buildCmd "fourStem" "python3" "demucs_separate.py" "in.mp3" "out" "1" "0.1" =
      buildCmd "hierarchicalSixStem" "python3" "demucs_separate.py" "in.mp3" "out" "1" "0.1" ∧
    stagesForRequest "fourStem" model4test model6test [0] =
      some [StageRecord.mk "htdemucs_ft" [0] [[1], [2], [3], [4]],
            StageRecord.mk "htdemucs_6s" [3] [[11], [12], [13], [14], [15], [16]]] ∧
    ([StageRecord.mk "htdemucs_ft" [0] [[1], [2], [3], [4]],
      StageRecord.mk "htdemucs_6s" [3] [[11], [12], [13], [14], [15], [16]]] : List StageRecord).length = 2 :=
  c2_amended_model_ignored "fourStem" "hierarchicalSixStem" "python3" "demucs_separate.py" "in.mp3" "out" "1" "0.1"
    model4test model6test [0]
    [("drums", [1]), ("bass", [2]), ("vocals", [4]), ("piano", [16]), ("guitar", [15]), ("other", [13])]
    [StageRecord.mk "htdemucs_ft" [0] [[1], [2], [3], [4]],
     StageRecord.mk "htdemucs_6s" [3] [[11], [12], [13], [14], [15], [16]]] rfl

/-- Claim C3: in every successful run of the two-stage pipeline, the
second stage's model is applied to the `other` waveform produced by the
first stage (the entry of stage 1's output at the index of `'other'` in
its source list), never to the original input audio, and the stage trace
is stage 1 strictly followed by stage 2 — stage 2's input is a function
of stage 1's completed output. -/
theorem c3_stage2_input_is_stage1_other (m4 m6 : Model) (input : Audio)
    (res : List (String × Audio)) (tr : List StageRecord)
    (h : runPipeline m4 m6 input = ScriptResult.ok res tr) :
    ∃ idx otherAudio,
      m4.sources.findIdx? (fun n => n == "other") = some idx ∧
      (m4.apply input).get? idx = some otherAudio ∧
      tr = [StageRecord.mk m4.name input (m4.apply input),
            StageRecord.mk m6.name otherAudio (m6.apply otherAudio)] := by
  rcases runPipeline_ok_elim m4 m6 input res tr h with ⟨idx, oa, h1, h2, h3, -⟩
  exact ⟨idx, oa, h1, h2, h3⟩

/-- Witness for C3, at a concrete input and concrete models. -/
theorem c3_witness :
    ∃ idx otherAudio,
      model4test.sources.findIdx? (fun n => n == "other") = some idx ∧
      (model4test.apply [0]).get? idx = some otherAudio ∧
      ([StageRecord.mk "htdemucs_ft" [0] [[1], [2], [3], [4]],
        StageRecord.mk "htdemucs_6s" [3] [[11], [12], [13], [14], [15], [16]]] : List StageRecord) =
        [StageRecord.mk model4test.name [0] (model4test.apply [0]),
         StageRecord.mk model6test.name otherAudio (model6test.apply otherAudio)] :=
  c3_stage2_input_is_stage1_other model4test model6test [0]
    [("drums", [1]), ("bass", [2]), ("vocals", [4]), ("piano", [16]), ("guitar", [15]), ("other", [13])]
    [StageRecord.mk "htdemucs_ft" [0] [[1], [2], [3], [4]],
     StageRecord.mk "htdemucs_6s" [3] [[11], [12], [13], [14], [15], [16]]] rfl

/-- Claim C4 counterexample: `drums` is produced by both stages (it is in
both models' source lists), yet the final mapping holds stage 1's drums
waveform, not the higher-precedence stage 2's — the script only takes
`piano`, `guitar`, `other` from stage 2, so "higher-precedence stage
wins" fails for `drums` (and likewise `bass`, `vocals`). -/
theorem c4_counterexample :
    "drums" ∈ model4test.sources ∧ "drums" ∈ model6test.sources ∧
    resultsOf (runPipeline model4test model6test [0]) =
      some [("drums", [1]), ("bass", [2]), ("vocals", [4]), ("piano", [16]), ("guitar", [15]), ("other", [13])] ∧
    (model6test.apply [3]).get? (model6test.sources.findIdx (fun n => n == "drums")) = some [11] ∧
    ([1] : Audio) ≠ [11] := by
  refine ⟨by decide, by decide, rfl, rfl, by decide⟩

/-- Claim C4 (amended): the merged result's stem names are the union of
stage 1's names and the targeted stage 2 names, but the tie-break favors
stage 2 only for the targeted names (`piano`, `guitar`, `other`): the
final `other` is stage 2's, while the other duplicated names (`drums`,
`bass`, `vocals`) keep stage 1's version, and stage-2 outputs outside
the target list are discarded. -/
theorem c4_amended_merge (ap4 ap6 : Audio → List Audio)
    (input d b o v d6 b6 o6 v6 g6 p6 : Audio)
    (h4 : ap4 input = [d, b, o, v]) (h6 : ap6 o = [d6, b6, o6, v6, g6, p6]) :
    ∃ res, resultsOf (runPipeline
        (Model.mk "htdemucs_ft" ["drums", "bass", "other", "vocals"] ap4)
        (Model.mk "htdemucs_6s" ["drums", "bass", "other", "vocals", "guitar", "piano"] ap6)
        input) = some res ∧
      res.map Prod.fst = ["drums", "bass", "vocals", "piano", "guitar", "other"] ∧
      res.lookup "other" = some o6 ∧
      res.lookup "drums" = some d ∧ res.lookup "bass" = some b ∧ res.lookup "vocals" = some v := by
  refine ⟨[("drums", d), ("bass", b), ("vocals", v), ("piano", p6), ("guitar", g6), ("other", o6)],
    ?_, rfl, rfl, rfl, rfl, rfl⟩
  rw [pipelineEval ap4 ap6 input d b o v d6 b6 o6 v6 g6 p6 h4 h6]
  rfl

/-- Witness for C4 (amended), at concrete stage outputs. -/
theorem c4_amended_witness :
    ∃ res, resultsOf (runPipeline
        (Model.mk "htdemucs_ft" ["drums", "bass", "other", "vocals"] ap4test)
        (Model.mk "htdemucs_6s" ["drums", "bass", "other", "vocals", "guitar", "piano"] ap6test)
        [0]) = some res ∧
      res.map Prod.fst = ["drums", "bass", "vocals", "piano", "guitar", "other"] ∧
      res.lookup "other" = some [13] ∧
      res.lookup "drums" = some [1] ∧ res.lookup "bass" = some [2] ∧ res.lookup "vocals" = some [4] :=
  c4_amended_merge ap4test ap6test [0] [1] [2] [3] [4] [11] [12] [13] [14] [15] [16] rfl rfl

/-- Claim C5: for every successful hierarchical job, the final `vocals`,
`drums` and `bass` stems are the ones produced by stage 1 (the 4-stem
model), the final `other` stem is stage 2's (never stage 1's
intermediate `other`, which is not saved at all), and `guitar` and
`piano` come from stage 2. -/
theorem c5_final_stem_provenance (ap4 ap6 : Audio → List Audio)
    (input d b o v d6 b6 o6 v6 g6 p6 : Audio)
    (h4 : ap4 input = [d, b, o, v]) (h6 : ap6 o = [d6, b6, o6, v6, g6, p6]) :
    ∃ res, resultsOf (runPipeline
        (Model.mk "htdemucs_ft" ["drums", "bass", "other", "vocals"] ap4)
        (Model.mk "htdemucs_6s" ["drums", "bass", "other", "vocals", "guitar", "piano"] ap6)
        input) = some res ∧
      res.lookup "vocals" = some v ∧ res.lookup "drums" = some d ∧ res.lookup "bass" = some b ∧
      res.lookup "other" = some o6 ∧ res.lookup "guitar" = some g6 ∧ res.lookup "piano" = some p6 := by
  refine ⟨[("drums", d), ("bass", b), ("vocals", v), ("piano", p6), ("guitar", g6), ("other", o6)],
    ?_, rfl, rfl, rfl, rfl, rfl, rfl⟩
  rw [pipelineEval ap4 ap6 input d b o v d6 b6 o6 v6 g6 p6 h4 h6]
  rfl

/-- Witness for C5, at concrete stage outputs. -/
theorem c5_witness :
    ∃ res, resultsOf (runPipeline
        (Model.mk "htdemucs_ft" ["drums", "bass", "other", "vocals"] ap4test)
        (Model.mk "htdemucs_6s" ["drums", "bass", "other", "vocals", "guitar", "piano"] ap6test)
        [0]) = some res ∧
      res.lookup "vocals" = some [4] ∧ res.lookup "drums" = some [1] ∧ res.lookup "bass" = some [2] ∧
      res.lookup "other" = some [13] ∧ res.lookup "guitar" = some [15] ∧ res.lookup "piano" = some [16] :=
  c5_final_stem_provenance ap4test ap6test [0] [1] [2] [3] [4] [11] [12] [13] [14] [15] [16] rfl rfl

/-- Claim C6: whenever the worker's execution exceeds the 1800-second
wall-clock budget, the caller receives the Timeout failure response and
never the `"Separation failed"` (StageExecutionError) response — whatever
return code, output directory and files the worker would eventually have
produced. -/
theorem c6_timeout_never_execution_error (filename model stderr : String) (duration : Nat)
    (rc : Int) (de : Bool) (files : List FsFile) (h : 1800 < duration) :
    responseFor filename model (runWorker duration rc stderr de files) =
      Response.jsonError 500 "Separation timeout (>30 minutes)" none ∧
    ∀ details, responseFor filename model (runWorker duration rc stderr de files) ≠
      Response.jsonError 500 "Separation failed" details := by
  have hb : timeoutBudget < duration := h
  have hw : runWorker duration rc stderr de files = WorkerOutcome.timedOut := by
    unfold runWorker
    rw [if_pos hb]
  constructor
  · rw [hw]
    rfl
  · intro details hne
    rw [hw] at hne
    simp only [responseFor] at hne
    injection hne with h1 h2 h3
    exact absurd h2 (by decide)

/-- Witness for C6: a 1801-second run that would have produced valid
output still yields the timeout response. -/
theorem c6_witness :
    responseFor "song.mp3" "htdemucs_2stage" (runWorker 1801 0 "" true [FsFile.mk "vocals.wav" [0]]) =
      Response.jsonError 500 "Separation timeout (>30 minutes)" none ∧
    responseFor "song.mp3" "htdemucs_2stage" (runWorker 1801 0 "" true [FsFile.mk "vocals.wav" [0]]) ≠
      Response.jsonError 500 "Separation failed" (some "") :=
  ⟨(c6_timeout_never_execution_error "song.mp3" "htdemucs_2stage" "" 1801 0 true
      [FsFile.mk "vocals.wav" [0]] (by decide)).1,
   (c6_timeout_never_execution_error "song.mp3" "htdemucs_2stage" "" 1801 0 true
      [FsFile.mk "vocals.wav" [0]] (by decide)).2 (some "")⟩

/-- Claim C7: for every job that allocated a workspace, whatever the
worker outcome (success, non-zero exit, timeout, or unexpected
exception) and whatever paths were created during the job, the final set
of existing paths contains neither the scratch directory nor any path
under it: the workspace is removed by the time the job reaches its
terminal outcome. -/
theorem c7_workspace_released_on_every_outcome (dir filename model : String) (w : WorkerOutcome)
    (created init : List String) (r : Response) (world : List String)
    (h : separateAudioJob dir filename model w created init = Except.ok (r, world)) :
    ∀ p, p ∈ world → p ≠ dir ∧ pyStartsWith p (dir ++ "/") = false := by
  intro p hp
  unfold separateAudioJob withTempDir handlerBody at h
  injection h with h1
  injection h1 with hr hw
  subst hw
  rcases List.mem_filter.mp hp with ⟨-, hcond⟩
  simp only [Bool.not_eq_true', Bool.or_eq_false_iff, beq_eq_false_iff_ne] at hcond
  exact hcond

/-- Witness for C7: a timed-out job leaves only the unrelated
pre-existing path behind. -/
theorem c7_witness :
    ("/keep" ≠ "/tmp/job0") ∧ pyStartsWith "/keep" ("/tmp/job0" ++ "/") = false :=
  c7_workspace_released_on_every_outcome "/tmp/job0" "song.mp3" "m" WorkerOutcome.timedOut [] ["/keep"]
    (Response.jsonError 500 "Separation timeout (>30 minutes)" none) ["/keep"] rfl
    "/keep" (List.mem_singleton.mpr rfl)

/-- Claim C8 counterexample: a worker run that exits 0 while the expected
output directory (and thus every expected stem file) is absent from disk
is answered with a success response, not a StageExecutionError — the
"expected output files absent" half of the claim fails on the code. -/
theorem c8_counterexample :
    responseFor "tune.mp3" "htdemucs_2stage" (WorkerOutcome.completed 0 "diagnostic text" false []) =
      Response.success [] [] "htdemucs_2stage" "tune" := rfl

/-- Claim C8 (amended): whenever the worker exits with a non-zero status
the caller receives the `"Separation failed"` response carrying the
worker's raw stderr, never a success; but when the worker exits 0 with
the expected output files absent from disk, the caller receives a
success response with an empty stems mapping rather than an error. -/
theorem c8_amended_nonzero_exit_fails (filename model stderr : String) (rc : Int) (de : Bool)
    (files : List FsFile) (hrc : rc ≠ 0) :
    responseFor filename model (WorkerOutcome.completed rc stderr de files) =
      Response.jsonError 500 "Separation failed" (some stderr) ∧
    responseFor filename model (WorkerOutcome.completed 0 stderr false files) =
      Response.success [] [] model (pathStem filename) := by
  constructor
  · simp only [responseFor]
    rw [if_pos hrc]
  · rfl

/-- Witness for C8 (amended), at a concrete failing run. -/
theorem c8_amended_witness :
    responseFor "t.mp3" "htdemucs_2stage" (WorkerOutcome.completed 1 "boom" true []) =
      Response.jsonError 500 "Separation failed" (some "boom") ∧
    responseFor "t.mp3" "htdemucs_2stage" (WorkerOutcome.completed 0 "boom" false []) =
      Response.success [] [] "htdemucs_2stage" (pathStem "t.mp3") :=
  c8_amended_nonzero_exit_fails "t.mp3" "htdemucs_2stage" "boom" 1 true [] (by decide)

/-- Claim C9: in every success response, each stem's value is a
self-describing inline `data:` URI built from some `.mp3`/`.wav` file of
the output directory — MIME type `audio/mpeg` for `.mp3` files and
`audio/wav` for `.wav` files, followed by the file's bytes
base64-encoded — never a filesystem path or reference. -/
theorem c9_stems_are_inline_data_uris (filename model : String) (w : WorkerOutcome)
    (stems : List (String × String)) (avail : List String) (m sn : String)
    (h : responseFor filename model w = Response.success stems avail m sn) :
    ∀ n v, (n, v) ∈ stems → ∃ f, f ∈ filesOf w ∧
      (pyEndsWith f.name ".mp3" || pyEndsWith f.name ".wav") = true ∧
      v = "data:" ++ (if pyEndsWith f.name ".mp3" then "audio/mpeg" else "audio/wav") ++
          ";base64," ++ base64Encode f.data := by
  intro n v hmem
  cases w with
  | timedOut => exact absurd h (by simp [responseFor])
  | raisedOther msg => exact absurd h (by simp [responseFor])
  | completed rc stderr de files =>
    simp only [responseFor] at h
    by_cases hrc : rc ≠ 0
    · rw [if_pos hrc] at h
      exact absurd h (by simp)
    · rw [if_neg hrc] at h
      injection h with h1 h2 h3 h4
      subst h1
      cases de with
      | false => exact absurd hmem (List.not_mem_nil _)
      | true =>
        rcases mem_collectStemsAux files [] n v hmem with ⟨f, hf, hacc, -, hv⟩ | habs
        · refine ⟨f, hf, hacc, ?_⟩
          rw [hv]
          rfl
        · exact absurd habs (List.not_mem_nil _)

/-- Witness for C9: the bytes `[77, 97]` of `vocals.mp3` are delivered as
`data:audio/mpeg;base64,TWE=`. -/
theorem c9_witness :
    ∃ f, f ∈ filesOf (WorkerOutcome.completed 0 "" true [FsFile.mk "vocals.mp3" [77, 97]]) ∧
      (pyEndsWith f.name ".mp3" || pyEndsWith f.name ".wav") = true ∧
      "data:audio/mpeg;base64,TWE=" =
        "data:" ++ (if pyEndsWith f.name ".mp3" then "audio/mpeg" else "audio/wav") ++
          ";base64," ++ base64Encode f.data :=
  c9_stems_are_inline_data_uris "song.mp3" "m" (WorkerOutcome.completed 0 "" true [FsFile.mk "vocals.mp3" [77, 97]])
    [("vocals", "data:audio/mpeg;base64,TWE=")] ["vocals"] "m" "song" rfl
    "vocals" "data:audio/mpeg;base64,TWE=" (List.mem_singleton.mpr rfl)

/-- Claim C10: in every success response, `availableStems` is exactly the
key list of the `stems` mapping, and that key list is duplicate-free, so
the two fields can never disagree about which stems are present. -/
theorem c10_availableStems_are_stem_keys (filename model : String) (w : WorkerOutcome)
    (stems : List (String × String)) (avail : List String) (m sn : String)
    (h : responseFor filename model w = Response.success stems avail m sn) :
    avail = stems.map Prod.fst ∧ (stems.map Prod.fst).Nodup := by
  cases w with
  | timedOut => exact absurd h (by simp [responseFor])
  | raisedOther msg => exact absurd h (by simp [responseFor])
  | completed rc stderr de files =>
    simp only [responseFor] at h
    by_cases hrc : rc ≠ 0
    · rw [if_pos hrc] at h
      exact absurd h (by simp)
    · rw [if_neg hrc] at h
      injection h with h1 h2 h3 h4
      subst h1
      subst h2
      refine ⟨rfl, ?_⟩
      cases de with
      | false => simp
      | true => exact nodup_keys_collectStemsAux files [] (by simp)

/-- Witness for C10, at a concrete success response. -/
theorem c10_witness :
    (["x"] : List String) = ([("x", "data:audio/wav;base64,AA==")] : List (String × String)).map Prod.fst ∧
    (([("x", "data:audio/wav;base64,AA==")] : List (String × String)).map Prod.fst).Nodup :=
  c10_availableStems_are_stem_keys "s.mp3" "m" (WorkerOutcome.completed 0 "" true [FsFile.mk "x.wav" [0]])
    [("x", "data:audio/wav;base64,AA==")] ["x"] "m" "s" rfl
